import Mathlib

/-!
# Telescope focus control: shared protocol configuration

A verification development for `telescope_focus_config.h`, the header shared by
the handheld sender and the focuser receiver.  The header consists of
preprocessor directives and two record declarations, so the embedding has three
layers:

* the header's directives, transcribed one for one, and a small model of the C
  preprocessor that runs them over whatever the including translation unit has
  defined before the `#include`;
* the two record declarations, transcribed as lists of typed fields;
* the Position Authority and the Message Codec, which the header only declares
  the vocabulary for; they are modelled from the written specification.
-/

set_option autoImplicit false

namespace TelescopeFocus

/-! ## The preprocessor model -/

/-- Replacement list of an object-like macro, as far as this header uses them:
nothing at all (the include guard), an integer literal, or a string literal. -/
inductive MacroVal where
  | empty : MacroVal
  | int : Int → MacroVal
  | str : String → MacroVal
  deriving DecidableEq, Repr

/-- Macro table of a translation unit: the current definition of each name. -/
abbrev MacroEnv := String → Option MacroVal

/-- Table of a translation unit that has defined nothing. -/
def noMacros : MacroEnv := fun _ => none

/-- The directives the header is made of.  `ifndefBlock n body` stands for
`#ifndef n` ... `#endif` around `body`. -/
inductive Directive where
  | define : String → MacroVal → Directive
  | ifndefBlock : String → List Directive → Directive

/-- Effect of `#define name v`: the name now stands for `v`.  A name that was
already defined is redefined (the compiler diagnoses it and the later
definition is the one in effect). -/
def defineMacro (name : String) (v : MacroVal) (env : MacroEnv) : MacroEnv :=
  fun k => if k = name then some v else env k

/-- Closed form of the idiom `#ifndef n` / `#define n w` / `#endif`: a default that gives way
to an earlier definition. -/
def defaultMacro (name : String) (w : MacroVal) (env : MacroEnv) : MacroEnv :=
  fun k => if k = name then some ((env name).getD w) else env k

mutual
/-- Run one directive over the macro table. -/
def runDirective : Directive → MacroEnv → MacroEnv
  | .define name v, env => defineMacro name v env
  | .ifndefBlock name body, env =>
    match env name with
    | none => runDirectives body env
    | some _ => env
/-- Run a sequence of directives, first to last. -/
def runDirectives : List Directive → MacroEnv → MacroEnv
  | [], env => env
  | d :: ds, env => runDirectives ds (runDirective d env)
end

/-! ## The header, directive by directive -/

/-- Transcription of `telescope_focus_config.h`: the include guard around every
`#define` of the file, in source order.  The two `typedef`s are not
preprocessor directives; they are transcribed further down. -/
def header : List Directive :=
  [ .ifndefBlock "TELESCOPE_FOCUS_CONFIG_H"
      [ .define "TELESCOPE_FOCUS_CONFIG_H" .empty
      , .define "PROTOCOL_VERSION" (.int 1)
      , .define "CMD_FOCUS_IN" (.str "FOCUS_IN")
      , .define "CMD_FOCUS_OUT" (.str "FOCUS_OUT")
      , .define "CMD_STOP" (.str "STOP")
      , .define "CMD_SET_POSITION" (.str "SET_POSITION")
      , .define "CMD_GET_POSITION" (.str "GET_POSITION")
      , .define "STATUS_ACK" (.str "ACK")
      , .define "STATUS_ERROR" (.str "ERROR")
      , .define "STATUS_POSITION" (.str "POSITION")
      , .define "ERROR_MIN_LIMIT" (.int 1)
      , .define "ERROR_MAX_LIMIT" (.int 2)
      , .define "ERROR_INVALID_POS" (.int 3)
      , .define "ERROR_UNKNOWN_CMD" (.int 4)
      , .define "ERROR_MOTOR_FAULT" (.int 5)
      , .define "ERROR_TIMEOUT" (.int 6)
      , .define "STEPS_COARSE" (.int 100)
      , .define "STEPS_MEDIUM" (.int 10)
      , .define "STEPS_FINE" (.int 1)
      , .ifndefBlock "MIN_POSITION" [ .define "MIN_POSITION" (.int 0) ]
      , .ifndefBlock "MAX_POSITION" [ .define "MAX_POSITION" (.int 10000) ]
      , .define "ACK_TIMEOUT_MS" (.int 1000)
      , .define "RETRY_COUNT" (.int 3)
      , .ifndefBlock "STEPS_PER_REV" [ .define "STEPS_PER_REV" (.int 200) ]
      , .ifndefBlock "MICROSTEPS" [ .define "MICROSTEPS" (.int 16) ]
      , .ifndefBlock "DEFAULT_SPEED" [ .define "DEFAULT_SPEED" (.int 500) ]
      ]
  ]

/-- Macro table after `#include "telescope_focus_config.h"` in a translation
unit whose table was `env` before the include. -/
def includeHeader (env : MacroEnv) : MacroEnv :=
  runDirectives header env

/-- Integer a macro stands for in a table (`none` when it is undefined or does not
stand for an integer literal). -/
def intMacro (env : MacroEnv) (name : String) : Option Int :=
  match env name with
  | some (.int n) => some n
  | _ => none

/-- String a macro stands for in a table. -/
def strMacro (env : MacroEnv) (name : String) : Option String :=
  match env name with
  | some (.str s) => some s
  | _ => none

mutual
/-- Every `#define` a directive contains, whether or not a guard lets it run. -/
def definesOf : Directive → List (String × MacroVal)
  | .define name v => [(name, v)]
  | .ifndefBlock _ body => definesIn body
/-- Every `#define` of a sequence of directives, in source order. -/
def definesIn : List Directive → List (String × MacroVal)
  | [] => []
  | d :: ds => definesOf d ++ definesIn ds
end

/-- String literals of the header's macros whose name begins with `family`
(`CMD_`, `STATUS_`), in source order. -/
def stringMacros (family : String) : List String :=
  (definesIn header).filterMap fun nv =>
    match nv.2 with
    | .str s => if family.toList.isPrefixOf nv.1.toList then some s else none
    | _ => none

/-- Names of the header's macros whose name begins with `family`. -/
def macroNames (family : String) : List String :=
  ((definesIn header).map Prod.fst).filter fun n => family.toList.isPrefixOf n.toList

/-- The command tokens: the strings of the `CMD_*` macros. -/
def commandTokens : List String := stringMacros "CMD_"

/-- The status tokens: the strings of the `STATUS_*` macros. -/
def statusTokens : List String := stringMacros "STATUS_"

/-- All tokens a text field can carry. -/
def allTokens : List String := commandTokens ++ statusTokens

/-- Value of an integer macro of the header in a translation unit that defined
nothing before the include. -/
def headerInt (name : String) : Int :=
  (intMacro (includeHeader noMacros) name).getD 0

def ERROR_MIN_LIMIT : Int := headerInt "ERROR_MIN_LIMIT"
def ERROR_MAX_LIMIT : Int := headerInt "ERROR_MAX_LIMIT"
def ERROR_INVALID_POS : Int := headerInt "ERROR_INVALID_POS"
def ERROR_UNKNOWN_CMD : Int := headerInt "ERROR_UNKNOWN_CMD"
def ERROR_MOTOR_FAULT : Int := headerInt "ERROR_MOTOR_FAULT"
def ERROR_TIMEOUT : Int := headerInt "ERROR_TIMEOUT"

/-- A translation unit that defines `ACK_TIMEOUT_MS` as 5000 and then includes
the header. -/
def unitWithTimeout : MacroEnv :=
  defineMacro "ACK_TIMEOUT_MS" (.int 5000) noMacros

/-- A translation unit that defines `MAX_POSITION` as 20000 and then includes
the header. -/
def unitWithMaxPosition : MacroEnv :=
  defineMacro "MAX_POSITION" (.int 20000) noMacros

/-- The constants the header marks "can be overridden": each sits in its own
`#ifndef`. -/
def overridable : List String :=
  ["MIN_POSITION", "MAX_POSITION", "STEPS_PER_REV", "MICROSTEPS", "DEFAULT_SPEED"]

/-! ## The record declarations -/

/-- C types the two records are built from. -/
inductive CType where
  | char : CType
  | int : CType
  | unsignedLong : CType
  | array : CType → Nat → CType
  deriving DecidableEq, Repr

/-- One member of a `struct`. -/
structure Field where
  name : String
  type : CType
  deriving DecidableEq, Repr

/-- The declaration `struct_message`: command, sender to receiver. -/
def struct_message : List Field :=
  [ ⟨"command", .array .char 32⟩
  , ⟨"value", .int⟩
  , ⟨"id", .unsignedLong⟩ ]

/-- The declaration `struct_response`: acknowledgment, receiver to sender. -/
def struct_response : List Field :=
  [ ⟨"status", .array .char 32⟩
  , ⟨"value", .int⟩
  , ⟨"id", .unsignedLong⟩ ]

/-- Sizes the C source leaves to the platform. -/
structure DataModel where
  intBytes : Nat
  longBytes : Nat

/-- Modelled from the spec: the platform's sizes of `int` and `unsigned long`,
which the header does not fix.  The wire format counts `value` as a 4-byte
signed integer and treats `id` as 32-bit. -/
def wireModel : DataModel := ⟨4, 4⟩

/-- Size of a value of a C type in bytes (`sizeof`). -/
def sizeofType (dm : DataModel) : CType → Nat
  | .char => 1
  | .int => dm.intBytes
  | .unsignedLong => dm.longBytes
  | .array t n => n * sizeofType dm t

/-- What a member holds: text, a signed integer or an unsigned integer. -/
inductive FieldKind where
  | text : FieldKind
  | signedInt : FieldKind
  | unsignedInt : FieldKind
  deriving DecidableEq, Repr

/-- Kind of a member, by its declared type. -/
def kindOf : CType → FieldKind
  | .int => .signedInt
  | .unsignedLong => .unsignedInt
  | .char => .text
  | .array _ _ => .text

/-- Layout of a record: kind and size of each member, in declaration order. -/
def layout (dm : DataModel) (decl : List Field) : List (FieldKind × Nat) :=
  decl.map fun f => (kindOf f.type, sizeofType dm f.type)

/-- Number of `char`s a text member of a record can hold (0 if the record has no
such member). -/
def textCapacity (decl : List Field) (name : String) : Nat :=
  match decl.find? (fun f => f.name == name) with
  | some ⟨_, .array .char n⟩ => n
  | _ => 0

/-- A printable ASCII byte. -/
def printable (b : Nat) : Bool := 32 ≤ b && b ≤ 126

/-- Bytes of a C string literal, terminator not included. -/
def cBytes (s : String) : List Nat := s.toList.map Char.toNat

/-! ## Position Authority -/

deriving instance DecidableEq for Except

/-- State of the Position Authority: the configured bounds and the position. -/
structure PositionAuthority where
  MIN_POSITION : Int
  MAX_POSITION : Int
  current_position : Int
  deriving DecidableEq, Repr

/-- Bounds the header gives a translation unit that defined nothing. -/
def defaultAuthority (current : Int) : PositionAuthority :=
  ⟨headerInt "MIN_POSITION", headerInt "MAX_POSITION", current⟩

/-- Modelled from the spec: `apply_relative` of the Position Authority, which
is not among the sources.  It computes `current + steps`; below `MIN_POSITION`
it fails with `ERROR_MIN_LIMIT`, above `MAX_POSITION` with `ERROR_MAX_LIMIT`,
otherwise it commits and returns the new position.  The result comes with the
state after the call. -/
def apply_relative (pa : PositionAuthority) (steps : Int) :
    Except Int Int × PositionAuthority :=
  let result := pa.current_position + steps
  if result < pa.MIN_POSITION then (.error ERROR_MIN_LIMIT, pa)
  else if result > pa.MAX_POSITION then (.error ERROR_MAX_LIMIT, pa)
  else (.ok result, { pa with current_position := result })

/-- Modelled from the spec: `apply_absolute` of the Position Authority, which
is not among the sources.  It validates `MIN_POSITION ≤ target ≤ MAX_POSITION`;
out of range fails with `ERROR_INVALID_POS`, in range commits. -/
def apply_absolute (pa : PositionAuthority) (target : Int) :
    Except Int Int × PositionAuthority :=
  if pa.MIN_POSITION ≤ target ∧ target ≤ pa.MAX_POSITION then
    (.ok target, { pa with current_position := target })
  else (.error ERROR_INVALID_POS, pa)

/-- Whether a call succeeded. -/
def succeeded (r : Except Int Int × PositionAuthority) : Bool :=
  match r.1 with
  | .ok _ => true
  | .error _ => false

/-! ## Message Codec -/

/-- A command as the sender holds it: the text of `command`, `value`, `id`. -/
structure Command where
  command : String
  value : Int
  id : Nat
  deriving DecidableEq, Repr

/-- A response as the receiver holds it: the text of `status`, `value`, `id`. -/
structure Response where
  status : String
  value : Int
  id : Nat
  deriving DecidableEq, Repr

/-- Either kind of message. -/
inductive Message where
  | command : Command → Message
  | response : Response → Message
  deriving DecidableEq, Repr

/-- Ways a wire record can fail to decode. -/
inductive DecodeError where
  | badLength : DecodeError
  | unterminated : DecodeError
  | notPrintable : DecodeError
  | unknownToken : DecodeError
  deriving DecidableEq, Repr

/-- A valid command: a command token, a 32-bit signed value, a 32-bit id. -/
def Command.valid (c : Command) : Prop :=
  c.command ∈ commandTokens ∧ -2147483648 ≤ c.value ∧ c.value ≤ 2147483647 ∧ c.id < 4294967296

/-- A valid response: a status token, a 32-bit signed value, a 32-bit id. -/
def Response.valid (r : Response) : Prop :=
  r.status ∈ statusTokens ∧ -2147483648 ≤ r.value ∧ r.value ≤ 2147483647 ∧ r.id < 4294967296

/-- A valid message of either kind. -/
def Message.valid : Message → Prop
  | .command c => c.valid
  | .response r => r.valid

instance (c : Command) : Decidable c.valid :=
  inferInstanceAs (Decidable (c.command ∈ commandTokens ∧ -2147483648 ≤ c.value
    ∧ c.value ≤ 2147483647 ∧ c.id < 4294967296))

instance (r : Response) : Decidable r.valid :=
  inferInstanceAs (Decidable (r.status ∈ statusTokens ∧ -2147483648 ≤ r.value
    ∧ r.value ≤ 2147483647 ∧ r.id < 4294967296))

instance (m : Message) : Decidable m.valid :=
  match m with
  | .command c => inferInstanceAs (Decidable c.valid)
  | .response r => inferInstanceAs (Decidable r.valid)

/-- Size of the text member on the wire: the capacity of `command`, which is
that of `status`. -/
def textBytes : Nat := textCapacity struct_message "command"

/-- Size of a whole record on the wire. -/
def recordBytes : Nat := ((layout wireModel struct_message).map Prod.snd).sum

/-- Modelled from the spec: the 32-byte text field, terminator-padded. -/
def encodeText (s : String) : List Nat :=
  (cBytes s ++ List.replicate (textBytes - (cBytes s).length) 0).take textBytes

/-- Four bytes of a 32-bit word, least significant first. -/
def le32 (n : Nat) : List Nat :=
  [n % 256, n / 256 % 256, n / 65536 % 256, n / 16777216 % 256]

/-- The 32-bit word of four bytes, least significant first. -/
def ofLe32 : List Nat → Nat
  | [a, b, c, d] => a + 256 * b + 65536 * c + 16777216 * d
  | _ => 0

/-- Two's complement word of a signed value. -/
def wordOfInt (v : Int) : Nat := (v % 4294967296).toNat

/-- Signed value of a two's complement word. -/
def intOfWord (n : Nat) : Int :=
  if n < 2147483648 then (n : Int) else (n : Int) - 4294967296

/-- Wire bytes of the three members. -/
def encodeRecord (text : String) (value : Int) (id : Nat) : List Nat :=
  encodeText text ++ le32 (wordOfInt value) ++ le32 (id % 4294967296)

/-- Modelled from the spec: `encode` of the Message Codec, which is not among
the sources.  It produces the fixed-size wire record: the text field, then
`value` as a 4-byte signed integer, then `id` as a 32-bit unsigned integer,
both little-endian. -/
def encode : Message → List Nat
  | .command c => encodeRecord c.command c.value c.id
  | .response r => encodeRecord r.status r.value r.id

/-- Text of a field: the bytes before the first terminator, provided there is a
terminator in the field and the bytes before it are printable. -/
def decodeText (field : List Nat) : Except DecodeError String :=
  let text := field.takeWhile fun b => b != 0
  if text.length = field.length then .error .unterminated
  else if text.all printable then .ok (String.mk (text.map Char.ofNat))
  else .error .notPrintable

/-- Modelled from the spec: `decode` of the Message Codec, which is not among
the sources.  It validates the exact byte length, that the text field holds
printable bytes followed by a terminator before the field boundary, and that
the text is a known token; a command token makes the record a Command, a
status token a Response. -/
def decode (bytes : List Nat) : Except DecodeError Message :=
  if bytes.length ≠ recordBytes then .error .badLength
  else
    match decodeText (bytes.take textBytes) with
    | .error e => .error e
    | .ok text =>
      let value := intOfWord (ofLe32 ((bytes.drop textBytes).take 4))
      let id := ofLe32 ((bytes.drop (textBytes + 4)).take 4)
      if text ∈ commandTokens then .ok (.command ⟨text, value, id⟩)
      else if text ∈ statusTokens then .ok (.response ⟨text, value, id⟩)
      else .error .unknownToken

/-! ## Running the header -/

theorem runDirectives_nil (env : MacroEnv) : runDirectives [] env = env := by
  simp only [runDirectives]

theorem runDirectives_cons (d : Directive) (ds : List Directive) (env : MacroEnv) :
    runDirectives (d :: ds) env = runDirectives ds (runDirective d env) := by
  simp only [runDirectives]

theorem runDirective_define (name : String) (v : MacroVal) (env : MacroEnv) :
    runDirective (.define name v) env = defineMacro name v env := by
  simp only [runDirective]

theorem runDirective_ifndef_undefined (name : String) (body : List Directive) (env : MacroEnv)
    (h : env name = none) :
    runDirective (.ifndefBlock name body) env = runDirectives body env := by
  simp only [runDirective, h]

theorem runDirective_ifndef_defined (name : String) (body : List Directive) (env : MacroEnv)
    (v : MacroVal) (h : env name = some v) :
    runDirective (.ifndefBlock name body) env = env := by
  simp only [runDirective, h]

/-- A guarded `#define` behaves as a default. -/
theorem runDirective_default (name : String) (w : MacroVal) (env : MacroEnv) :
    runDirective (.ifndefBlock name [.define name w]) env = defaultMacro name w env := by
  funext k
  cases h : env name with
  | none =>
    rw [runDirective_ifndef_undefined _ _ _ h, runDirectives_cons, runDirectives_nil,
      runDirective_define]
    simp [defaultMacro, defineMacro, h]
  | some v =>
    rw [runDirective_ifndef_defined _ _ _ v h]
    by_cases hk : k = name
    · simp [defaultMacro, hk, h]
    · simp [defaultMacro, hk]

/-- Including the header a second time changes nothing: the guard is defined. -/
theorem includeHeader_again (env : MacroEnv) (g : MacroVal)
    (h : env "TELESCOPE_FOCUS_CONFIG_H" = some g) : includeHeader env = env := by
  simp only [includeHeader, header, runDirectives_cons, runDirectives_nil]
  exact runDirective_ifndef_defined _ _ _ g h

/-- The first inclusion: the directives of the guarded body, as updates of the
table, the last directive outermost. -/
theorem includeHeader_first (env : MacroEnv) (h : env "TELESCOPE_FOCUS_CONFIG_H" = none) :
    includeHeader env =
      defaultMacro "DEFAULT_SPEED" (.int 500)
      (defaultMacro "MICROSTEPS" (.int 16)
      (defaultMacro "STEPS_PER_REV" (.int 200)
      (defineMacro "RETRY_COUNT" (.int 3)
      (defineMacro "ACK_TIMEOUT_MS" (.int 1000)
      (defaultMacro "MAX_POSITION" (.int 10000)
      (defaultMacro "MIN_POSITION" (.int 0)
      (defineMacro "STEPS_FINE" (.int 1)
      (defineMacro "STEPS_MEDIUM" (.int 10)
      (defineMacro "STEPS_COARSE" (.int 100)
      (defineMacro "ERROR_TIMEOUT" (.int 6)
      (defineMacro "ERROR_MOTOR_FAULT" (.int 5)
      (defineMacro "ERROR_UNKNOWN_CMD" (.int 4)
      (defineMacro "ERROR_INVALID_POS" (.int 3)
      (defineMacro "ERROR_MAX_LIMIT" (.int 2)
      (defineMacro "ERROR_MIN_LIMIT" (.int 1)
      (defineMacro "STATUS_POSITION" (.str "POSITION")
      (defineMacro "STATUS_ERROR" (.str "ERROR")
      (defineMacro "STATUS_ACK" (.str "ACK")
      (defineMacro "CMD_GET_POSITION" (.str "GET_POSITION")
      (defineMacro "CMD_SET_POSITION" (.str "SET_POSITION")
      (defineMacro "CMD_STOP" (.str "STOP")
      (defineMacro "CMD_FOCUS_OUT" (.str "FOCUS_OUT")
      (defineMacro "CMD_FOCUS_IN" (.str "FOCUS_IN")
      (defineMacro "PROTOCOL_VERSION" (.int 1)
      (defineMacro "TELESCOPE_FOCUS_CONFIG_H" .empty env))))))))))))))))))))))))) := by
  simp only [includeHeader, header, runDirectives_cons, runDirectives_nil]
  rw [runDirective_ifndef_undefined _ _ _ h]
  simp only [runDirectives_cons, runDirectives_nil, runDirective_default, runDirective_define]

/-! ## Tokens -/

theorem commandTokens_eq :
    commandTokens = ["FOCUS_IN", "FOCUS_OUT", "STOP", "SET_POSITION", "GET_POSITION"] := by
  decide

theorem statusTokens_eq : statusTokens = ["ACK", "ERROR", "POSITION"] := by
  decide

theorem allTokens_eq :
    allTokens = ["FOCUS_IN", "FOCUS_OUT", "STOP", "SET_POSITION", "GET_POSITION",
      "ACK", "ERROR", "POSITION"] := by
  decide

/-! ## Codec arithmetic -/

theorem ofLe32_le32 (n : Nat) (h : n < 4294967296) : ofLe32 (le32 n) = n := by
  simp only [le32, ofLe32]
  omega

theorem intOfWord_wordOfInt (v : Int) (hlo : -2147483648 ≤ v) (hhi : v ≤ 2147483647) :
    intOfWord (wordOfInt v) = v := by
  unfold intOfWord wordOfInt
  split <;> omega

theorem length_encodeText (s : String) : (encodeText s).length = 32 := by
  have ht : textBytes = 32 := by decide
  simp only [encodeText, ht, List.length_take, List.length_append, List.length_replicate]
  omega

/-- Decoding a record built from its three members: the text decides. -/
theorem decode_encodeRecord (text : String) (value : Int) (id : Nat)
    (hlo : -2147483648 ≤ value) (hhi : value ≤ 2147483647) (hid : id < 4294967296)
    (htext : decodeText (encodeText text) = .ok text) :
    decode (encodeRecord text value id) =
      if text ∈ commandTokens then .ok (.command ⟨text, value, id⟩)
      else if text ∈ statusTokens then .ok (.response ⟨text, value, id⟩)
      else .error .unknownToken := by
  have ht : textBytes = 32 := by decide
  have hr : recordBytes = 40 := by decide
  have hlen := length_encodeText text
  have hid' : id % 4294967296 = id := Nat.mod_eq_of_lt hid
  have hw : wordOfInt value < 4294967296 := by unfold wordOfInt; omega
  have h1 : (encodeRecord text value id).take 32 = encodeText text := by
    unfold encodeRecord
    rw [List.append_assoc]
    exact List.take_left' hlen
  have h2 : (encodeRecord text value id).drop 32
      = le32 (wordOfInt value) ++ le32 (id % 4294967296) := by
    unfold encodeRecord
    rw [List.append_assoc]
    exact List.drop_left' hlen
  have h3 : ((encodeRecord text value id).drop 32).take 4 = le32 (wordOfInt value) := by
    rw [h2]
    exact List.take_left' rfl
  have h4 : ((encodeRecord text value id).drop (32 + 4)).take 4 = le32 (id % 4294967296) := by
    rw [← List.drop_drop, h2, List.drop_left' (by rfl : (le32 (wordOfInt value)).length = 4)]
    rfl
  have h5 : (encodeRecord text value id).length = 40 := by
    unfold encodeRecord
    simp only [List.length_append, hlen, le32, List.length_cons, List.length_nil]
  unfold decode
  rw [ht, hr, h1, h3, h4, htext, hid', ofLe32_le32 _ hw, ofLe32_le32 _ hid,
    intOfWord_wordOfInt _ hlo hhi]
  simp only [h5, ne_eq, not_true_eq_false, if_false]

/-- Every record `encode` produces has the fixed size, 40 bytes. -/
theorem length_encode (m : Message) : (encode m).length = recordBytes := by
  have hr : recordBytes = 40 := by decide
  cases m <;>
    simp only [encode, encodeRecord, List.length_append, length_encodeText, le32,
      List.length_cons, List.length_nil, hr]

/-! ## The claims -/

/-- C1: the header's error codes are exactly `ERROR_MIN_LIMIT` = 1,
`ERROR_MAX_LIMIT` = 2, `ERROR_INVALID_POS` = 3, `ERROR_UNKNOWN_CMD` = 4,
`ERROR_MOTOR_FAULT` = 5 and `ERROR_TIMEOUT` = 6: these six are all the `ERROR_*`
macros the header defines, and a translation unit that includes the header for
the first time gets these values whatever it defined before. -/
theorem error_codes (env : MacroEnv) (h : env "TELESCOPE_FOCUS_CONFIG_H" = none) :
    macroNames "ERROR_" = ["ERROR_MIN_LIMIT", "ERROR_MAX_LIMIT", "ERROR_INVALID_POS",
        "ERROR_UNKNOWN_CMD", "ERROR_MOTOR_FAULT", "ERROR_TIMEOUT"]
      ∧ (macroNames "ERROR_").map (intMacro (includeHeader env))
          = [some 1, some 2, some 3, some 4, some 5, some 6]
      ∧ ERROR_MIN_LIMIT = 1 ∧ ERROR_MAX_LIMIT = 2 ∧ ERROR_INVALID_POS = 3
      ∧ ERROR_UNKNOWN_CMD = 4 ∧ ERROR_MOTOR_FAULT = 5 ∧ ERROR_TIMEOUT = 6 := by
  have hn : macroNames "ERROR_" = ["ERROR_MIN_LIMIT", "ERROR_MAX_LIMIT", "ERROR_INVALID_POS",
        "ERROR_UNKNOWN_CMD", "ERROR_MOTOR_FAULT", "ERROR_TIMEOUT"] := by decide
  refine ⟨hn, ?_, by decide, by decide, by decide, by decide, by decide, by decide⟩
  rw [hn, includeHeader_first env h]
  simp [intMacro, defineMacro, defaultMacro]

theorem error_codes_witness :
    noMacros "TELESCOPE_FOCUS_CONFIG_H" = none
      ∧ (macroNames "ERROR_").map (intMacro (includeHeader noMacros))
          = [some 1, some 2, some 3, some 4, some 5, some 6] :=
  ⟨rfl, (error_codes noMacros rfl).2.1⟩

/-- C2: from a position within `[MIN_POSITION, MAX_POSITION]`, for every signed
step count, `apply_relative` leaves the position within the bounds: it commits
`current + steps` when the sum is in range, fails with `ERROR_MIN_LIMIT` (1)
when the sum is below `MIN_POSITION` and with `ERROR_MAX_LIMIT` (2) when it is
above `MAX_POSITION`, and a failure leaves the state as it was; with the
default bounds, 9999 and +5 give error 2 and the position stays 9999. -/
theorem apply_relative_within_bounds (pa : PositionAuthority) (steps : Int)
    (hlo : pa.MIN_POSITION ≤ pa.current_position)
    (hhi : pa.current_position ≤ pa.MAX_POSITION) :
    ((apply_relative pa steps).2.MIN_POSITION ≤ (apply_relative pa steps).2.current_position
        ∧ (apply_relative pa steps).2.current_position ≤ (apply_relative pa steps).2.MAX_POSITION)
      ∧ ((apply_relative pa steps).2.MIN_POSITION = pa.MIN_POSITION
        ∧ (apply_relative pa steps).2.MAX_POSITION = pa.MAX_POSITION)
      ∧ (pa.MIN_POSITION ≤ pa.current_position + steps
          → pa.current_position + steps ≤ pa.MAX_POSITION
          → (apply_relative pa steps).1 = .ok (pa.current_position + steps)
            ∧ (apply_relative pa steps).2.current_position = pa.current_position + steps)
      ∧ (pa.current_position + steps < pa.MIN_POSITION
          → apply_relative pa steps = (.error 1, pa))
      ∧ (pa.MAX_POSITION < pa.current_position + steps
          → apply_relative pa steps = (.error 2, pa))
      ∧ defaultAuthority 9999 = ⟨0, 10000, 9999⟩
      ∧ apply_relative (defaultAuthority 9999) 5 = (.error 2, defaultAuthority 9999) := by
  have e1 : ERROR_MIN_LIMIT = 1 := by decide
  have e2 : ERROR_MAX_LIMIT = 2 := by decide
  refine ⟨?_, ?_, ?_, ?_, ?_, by decide, by decide⟩
  · unfold apply_relative
    by_cases h1 : pa.current_position + steps < pa.MIN_POSITION
    · simp only [h1, if_true]
      exact ⟨hlo, hhi⟩
    · by_cases h2 : pa.current_position + steps > pa.MAX_POSITION
      · simp only [h1, h2, if_true, if_false]
        exact ⟨hlo, hhi⟩
      · simp only [h1, h2, if_false]
        exact ⟨by omega, by omega⟩
  · unfold apply_relative
    by_cases h1 : pa.current_position + steps < pa.MIN_POSITION
    · simp only [h1, if_true, and_self]
    · by_cases h2 : pa.current_position + steps > pa.MAX_POSITION
      · simp only [h1, h2, if_true, if_false, and_self]
      · simp only [h1, h2, if_false, and_self]
  · intro h1 h2
    have h1n : ¬ pa.current_position + steps < pa.MIN_POSITION := by omega
    have h2n : ¬ pa.current_position + steps > pa.MAX_POSITION := by omega
    unfold apply_relative
    simp only [h1n, h2n, if_false, and_self]
  · intro h1
    unfold apply_relative
    simp only [h1, if_true, e1]
  · intro h2
    have h1n : ¬ pa.current_position + steps < pa.MIN_POSITION := by omega
    have h2p : pa.current_position + steps > pa.MAX_POSITION := h2
    unfold apply_relative
    simp only [h1n, h2p, if_true, if_false, e2]

theorem apply_relative_within_bounds_witness :
    (0 : Int) ≤ 9999 ∧ (9999 : Int) ≤ 10000
      ∧ apply_relative ⟨0, 10000, 9999⟩ 5 = (.error 2, ⟨0, 10000, 9999⟩) :=
  ⟨by decide, by decide,
    (apply_relative_within_bounds ⟨0, 10000, 9999⟩ 5 (by decide) (by decide)).2.2.2.2.1
      (by decide)⟩

/-- C3: for every signed target, `apply_absolute` succeeds if and only if
`MIN_POSITION ≤ target ≤ MAX_POSITION`; on success it returns the target and
the new position is the target exactly; on failure the error is
`ERROR_INVALID_POS` (3) and the state is as it was; with the default bounds,
position 0 and target -5 give error 3. -/
theorem apply_absolute_iff_in_range (pa : PositionAuthority) (target : Int) :
    (succeeded (apply_absolute pa target) = true
        ↔ pa.MIN_POSITION ≤ target ∧ target ≤ pa.MAX_POSITION)
      ∧ (succeeded (apply_absolute pa target) = true
          → (apply_absolute pa target).1 = .ok target
            ∧ (apply_absolute pa target).2.current_position = target
            ∧ (apply_absolute pa target).2.MIN_POSITION = pa.MIN_POSITION
            ∧ (apply_absolute pa target).2.MAX_POSITION = pa.MAX_POSITION)
      ∧ (succeeded (apply_absolute pa target) = false
          → apply_absolute pa target = (.error 3, pa))
      ∧ apply_absolute (defaultAuthority 0) (-5) = (.error 3, defaultAuthority 0) := by
  have e3 : ERROR_INVALID_POS = 3 := by decide
  refine ⟨?_, ?_, ?_, by decide⟩
  · unfold apply_absolute succeeded
    by_cases h : pa.MIN_POSITION ≤ target ∧ target ≤ pa.MAX_POSITION
    · simp only [h, and_self, if_true]
    · simp only [h, if_false, Bool.false_eq_true]
  · unfold apply_absolute succeeded
    by_cases h : pa.MIN_POSITION ≤ target ∧ target ≤ pa.MAX_POSITION
    · simp only [h, and_self, if_true, implies_true]
    · simp only [h, if_false, Bool.false_eq_true, false_implies]
  · unfold apply_absolute succeeded
    by_cases h : pa.MIN_POSITION ≤ target ∧ target ≤ pa.MAX_POSITION
    · simp only [h, and_self, if_true, Bool.true_eq_false, false_implies]
    · simp only [h, if_false, e3, implies_true]

/-- C7: a translation unit that has not defined `MIN_POSITION` or
`MAX_POSITION` and includes the header for the first time gets the defaults
`MIN_POSITION` = 0, `MAX_POSITION` = 10000, `ACK_TIMEOUT_MS` = 1000 and
`RETRY_COUNT` = 3. -/
theorem defaults_when_not_overridden (env : MacroEnv)
    (hguard : env "TELESCOPE_FOCUS_CONFIG_H" = none)
    (hmin : env "MIN_POSITION" = none) (hmax : env "MAX_POSITION" = none) :
    intMacro (includeHeader env) "MIN_POSITION" = some 0
      ∧ intMacro (includeHeader env) "MAX_POSITION" = some 10000
      ∧ intMacro (includeHeader env) "ACK_TIMEOUT_MS" = some 1000
      ∧ intMacro (includeHeader env) "RETRY_COUNT" = some 3 := by
  rw [includeHeader_first env hguard]
  simp [intMacro, defineMacro, defaultMacro, hmin, hmax]

theorem defaults_when_not_overridden_witness :
    noMacros "TELESCOPE_FOCUS_CONFIG_H" = none ∧ noMacros "MIN_POSITION" = none
      ∧ noMacros "MAX_POSITION" = none
      ∧ intMacro (includeHeader noMacros) "MIN_POSITION" = some 0
      ∧ intMacro (includeHeader noMacros) "MAX_POSITION" = some 10000
      ∧ intMacro (includeHeader noMacros) "ACK_TIMEOUT_MS" = some 1000
      ∧ intMacro (includeHeader noMacros) "RETRY_COUNT" = some 3 :=
  ⟨rfl, rfl, rfl, defaults_when_not_overridden noMacros rfl rfl rfl⟩

/-- C8, as stated, fails for `ACK_TIMEOUT_MS`: a translation unit that defines
it as 5000 before including the header has it stand for 1000 afterwards. -/
theorem ack_timeout_not_overridable :
    unitWithTimeout "ACK_TIMEOUT_MS" = some (.int 5000)
      ∧ unitWithTimeout "TELESCOPE_FOCUS_CONFIG_H" = none
      ∧ includeHeader unitWithTimeout "ACK_TIMEOUT_MS" = some (.int 1000)
      ∧ includeHeader unitWithTimeout "ACK_TIMEOUT_MS" ≠ unitWithTimeout "ACK_TIMEOUT_MS" := by
  decide

/-- C8, amended: each of `MIN_POSITION`, `MAX_POSITION`, `STEPS_PER_REV`,
`MICROSTEPS` and `DEFAULT_SPEED` can be overridden: a value the translation
unit defined before the include is the value in effect after it.
`ACK_TIMEOUT_MS` and `RETRY_COUNT` are defined unconditionally: after the first
inclusion they stand for 1000 and 3 whatever was defined before. -/
theorem guarded_constants_overridable (env : MacroEnv) (name : String) (v : MacroVal) :
    (name ∈ overridable → env name = some v → includeHeader env name = some v)
      ∧ (env "TELESCOPE_FOCUS_CONFIG_H" = none
          → includeHeader env "ACK_TIMEOUT_MS" = some (.int 1000)
            ∧ includeHeader env "RETRY_COUNT" = some (.int 3)) := by
  constructor
  · intro hname hdef
    cases hg : env "TELESCOPE_FOCUS_CONFIG_H" with
    | some g => rw [includeHeader_again env g hg]; exact hdef
    | none =>
      rw [includeHeader_first env hg]
      simp only [overridable, List.mem_cons, List.mem_singleton, List.not_mem_nil, or_false]
        at hname
      rcases hname with h | h | h | h | h <;> subst h <;>
        simp [defineMacro, defaultMacro, hdef]
  · intro hg
    rw [includeHeader_first env hg]
    simp [defineMacro, defaultMacro]

theorem guarded_constants_overridable_witness :
    "MAX_POSITION" ∈ overridable
      ∧ unitWithMaxPosition "MAX_POSITION" = some (.int 20000)
      ∧ unitWithMaxPosition "TELESCOPE_FOCUS_CONFIG_H" = none
      ∧ includeHeader unitWithMaxPosition "MAX_POSITION" = some (.int 20000)
      ∧ includeHeader unitWithMaxPosition "ACK_TIMEOUT_MS" = some (.int 1000)
      ∧ includeHeader unitWithMaxPosition "RETRY_COUNT" = some (.int 3) :=
  ⟨by decide, by decide, by decide,
    (guarded_constants_overridable unitWithMaxPosition "MAX_POSITION" (.int 20000)).1
      (by decide) (by decide),
    (guarded_constants_overridable unitWithMaxPosition "MAX_POSITION" (.int 20000)).2
      (by decide)⟩

/-- C4: every command token and every status token the header defines has at
most 31 characters, all printable ASCII, so with its terminator it fits in the
32-byte `command` field of `struct_message` and the 32-byte `status` field of
`struct_response`. -/
theorem tokens_fit_text_field (t : String) (h : t ∈ commandTokens ∨ t ∈ statusTokens) :
    t.length ≤ 31
      ∧ (cBytes t).length = t.length
      ∧ (∀ b ∈ cBytes t, 32 ≤ b ∧ b ≤ 126)
      ∧ textCapacity struct_message "command" = 32
      ∧ textCapacity struct_response "status" = 32
      ∧ (cBytes t).length + 1 ≤ textCapacity struct_message "command"
      ∧ (cBytes t).length + 1 ≤ textCapacity struct_response "status" := by
  have hall : ∀ u ∈ allTokens,
      u.length ≤ 31
        ∧ (cBytes u).length = u.length
        ∧ (∀ b ∈ cBytes u, 32 ≤ b ∧ b ≤ 126)
        ∧ textCapacity struct_message "command" = 32
        ∧ textCapacity struct_response "status" = 32
        ∧ (cBytes u).length + 1 ≤ textCapacity struct_message "command"
        ∧ (cBytes u).length + 1 ≤ textCapacity struct_response "status" := by
    decide
  apply hall t
  unfold allTokens
  exact List.mem_append.mpr h

theorem tokens_fit_text_field_witness :
    ("SET_POSITION" ∈ commandTokens ∨ "SET_POSITION" ∈ statusTokens)
      ∧ "SET_POSITION".length ≤ 31
      ∧ (cBytes "SET_POSITION").length + 1 ≤ textCapacity struct_message "command" :=
  ⟨by decide, (tokens_fit_text_field "SET_POSITION" (by decide)).1,
    (tokens_fit_text_field "SET_POSITION" (by decide)).2.2.2.2.2.1⟩

/-- C5: the command tokens the header defines are exactly `FOCUS_IN`,
`FOCUS_OUT`, `STOP`, `SET_POSITION`, `GET_POSITION` and the status tokens exactly
`ACK`, `ERROR`, `POSITION`; within each set the tokens are pairwise distinct,
so an exact-match lookup of any text finds at most one command and at most one
status; the comparison is case-sensitive, and `FOCUS_SIDEWAYS` matches none.
These strings are what the `CMD_*` and `STATUS_*` macros stand for after the
first inclusion of the header. -/
theorem token_sets_exact (s : String) (env : MacroEnv) :
    commandTokens = ["FOCUS_IN", "FOCUS_OUT", "STOP", "SET_POSITION", "GET_POSITION"]
      ∧ statusTokens = ["ACK", "ERROR", "POSITION"]
      ∧ commandTokens.Nodup ∧ statusTokens.Nodup
      ∧ (commandTokens.filter fun t => t == s).length ≤ 1
      ∧ (statusTokens.filter fun t => t == s).length ≤ 1
      ∧ "FOCUS_SIDEWAYS" ∉ commandTokens ∧ "FOCUS_SIDEWAYS" ∉ statusTokens
      ∧ "focus_in" ∉ commandTokens ∧ "ack" ∉ statusTokens
      ∧ (env "TELESCOPE_FOCUS_CONFIG_H" = none
          → (macroNames "CMD_").map (strMacro (includeHeader env)) = commandTokens.map some
            ∧ (macroNames "STATUS_").map (strMacro (includeHeader env))
                = statusTokens.map some) := by
  have hc : commandTokens.Nodup := by decide
  have hs : statusTokens.Nodup := by decide
  refine ⟨commandTokens_eq, statusTokens_eq, hc, hs, ?_, ?_,
    by decide, by decide, by decide, by decide, ?_⟩
  · have := List.nodup_iff_count_le_one.mp hc s
    rwa [List.count, List.countP_eq_length_filter] at this
  · have := List.nodup_iff_count_le_one.mp hs s
    rwa [List.count, List.countP_eq_length_filter] at this
  · intro hg
    have hcn : macroNames "CMD_" = ["CMD_FOCUS_IN", "CMD_FOCUS_OUT", "CMD_STOP",
        "CMD_SET_POSITION", "CMD_GET_POSITION"] := by decide
    have hsn : macroNames "STATUS_" = ["STATUS_ACK", "STATUS_ERROR", "STATUS_POSITION"] := by
      decide
    rw [hcn, hsn, commandTokens_eq, statusTokens_eq, includeHeader_first env hg]
    simp [strMacro, defineMacro, defaultMacro]

theorem token_sets_exact_witness :
    noMacros "TELESCOPE_FOCUS_CONFIG_H" = none
      ∧ (commandTokens.filter fun t => t == "FOCUS_SIDEWAYS").length ≤ 1
      ∧ (macroNames "CMD_").map (strMacro (includeHeader noMacros)) = commandTokens.map some :=
  ⟨rfl, (token_sets_exact "FOCUS_SIDEWAYS" noMacros).2.2.2.2.1,
    ((token_sets_exact "FOCUS_SIDEWAYS" noMacros).2.2.2.2.2.2.2.2.2.2 rfl).1⟩

/-- C6: `struct_message` and `struct_response` have the same layout: a 32-byte
text member, then `value`, a signed `int` of 4 bytes, then `id`, an unsigned
integer counted as 32 bits; whatever sizes the platform gives `int` and
`unsigned long`, the two records have the same member sizes in the same
order. -/
theorem records_share_layout (dm : DataModel) :
    struct_message.map Field.type = [.array .char 32, .int, .unsignedLong]
      ∧ struct_response.map Field.type = [.array .char 32, .int, .unsignedLong]
      ∧ struct_message.map Field.name = ["command", "value", "id"]
      ∧ struct_response.map Field.name = ["status", "value", "id"]
      ∧ layout wireModel struct_message = [(.text, 32), (.signedInt, 4), (.unsignedInt, 4)]
      ∧ layout wireModel struct_response = [(.text, 32), (.signedInt, 4), (.unsignedInt, 4)]
      ∧ layout dm struct_message = layout dm struct_response
      ∧ layout dm struct_message
          = [(.text, 32), (.signedInt, dm.intBytes), (.unsignedInt, dm.longBytes)] := by
  refine ⟨by decide, by decide, by decide, by decide, by decide, by decide, ?_, ?_⟩
  · simp [layout, struct_message, struct_response]
  · simp [layout, struct_message, kindOf, sizeofType]

/-- C10: across the eight tokens no token equals another and none is a proper
prefix of another; no command token is a status token, so the text alone tells
a Command from a Response; and a comparison limited to a token's length cannot
confuse two tokens: a text begins with at most one token. -/
theorem tokens_distinct_no_proper_head (a b s : String)
    (ha : a ∈ allTokens) (hb : b ∈ allTokens) :
    allTokens.length = 8 ∧ allTokens.Nodup
      ∧ (a.toList <+: b.toList → a = b)
      ∧ (a.toList <+: s.toList → b.toList <+: s.toList → a = b)
      ∧ (a ≠ b → b.toList.take a.length ≠ a.toList)
      ∧ (a ∈ commandTokens → a ∉ statusTokens) := by
  have hfree : ∀ x ∈ allTokens, ∀ y ∈ allTokens,
      x.toList.isPrefixOf y.toList = true → x = y := by decide
  have hpre : a.toList <+: b.toList → a = b := fun h =>
    hfree a ha b hb (List.isPrefixOf_iff_prefix.mpr h)
  have hdis : ∀ x ∈ commandTokens, x ∉ statusTokens := by decide
  refine ⟨by decide, by decide, hpre, ?_, ?_, hdis a⟩
  · intro h1 h2
    rcases Nat.le_total a.toList.length b.toList.length with hl | hl
    · exact hpre (List.prefix_of_prefix_length_le h1 h2 hl)
    · exact (hfree b hb a ha
        (List.isPrefixOf_iff_prefix.mpr (List.prefix_of_prefix_length_le h2 h1 hl))).symm
  · intro hne htake
    apply hne
    apply hpre
    rw [List.prefix_iff_eq_take]
    exact htake.symm

theorem tokens_distinct_no_proper_head_witness :
    "POSITION" ∈ allTokens ∧ "SET_POSITION" ∈ allTokens
      ∧ ("POSITION" ≠ "SET_POSITION"
          → "SET_POSITION".toList.take "POSITION".length ≠ "POSITION".toList) :=
  ⟨by decide, by decide,
    (tokens_distinct_no_proper_head "POSITION" "SET_POSITION" "" (by decide)
      (by decide)).2.2.2.2.1⟩

/-- C9: round trip.  For every valid Command (a command token, a 32-bit signed
value, a 32-bit id) and every valid Response (a status token, a 32-bit signed
value, a 32-bit id), `encode` produces a record of the fixed size, 40 bytes,
and decoding that record returns the same message. -/
theorem decode_encode (m : Message) (h : m.valid) :
    (encode m).length = 40 ∧ decode (encode m) = .ok m := by
  refine ⟨length_encode m, ?_⟩
  have htok : ∀ t ∈ allTokens, decodeText (encodeText t) = .ok t := by decide
  have hdis : ∀ x ∈ statusTokens, x ∉ commandTokens := by decide
  cases m with
  | command c =>
    obtain ⟨text, value, id⟩ := c
    obtain ⟨hmem, hlo, hhi, hid⟩ := h
    have hmem' : text ∈ commandTokens := hmem
    have hall : text ∈ allTokens := List.mem_append.mpr (Or.inl hmem')
    simp only [encode]
    rw [decode_encodeRecord text value id hlo hhi hid (htok text hall)]
    simp only [hmem', if_true]
  | response r =>
    obtain ⟨text, value, id⟩ := r
    obtain ⟨hmem, hlo, hhi, hid⟩ := h
    have hmem' : text ∈ statusTokens := hmem
    have hall : text ∈ allTokens := List.mem_append.mpr (Or.inr hmem')
    simp only [encode]
    rw [decode_encodeRecord text value id hlo hhi hid (htok text hall)]
    simp only [hdis text hmem', hmem', if_true, if_false]

theorem decode_encode_witness :
    (Message.command ⟨"SET_POSITION", -5, 7⟩).valid
      ∧ decode (encode (.command ⟨"SET_POSITION", -5, 7⟩))
          = .ok (.command ⟨"SET_POSITION", -5, 7⟩) :=
  ⟨by decide, (decode_encode (.command ⟨"SET_POSITION", -5, 7⟩) (by decide)).2⟩

end TelescopeFocus
